import Mathlib

/-!
Shallow embedding of the Reconciliation Engine of the Analisador repository
(function processar_dados_streamlit in src/app.py, lines 42-82).

The engine takes a budget table, an expenditure table, a fiscal year and a
closed period range, merges aggregated expenditures into the per-period
budget columns for the target year, and derives per-project totals and a
balance, masking the derived fields on all but the latest fiscal year of
each project.

Modelling conventions:
* Numeric cell values (pandas floats) are rationals.
* A budget table is a structure: the set of its period columns is recorded
  as the list of their numbers (a column named Period n is recorded as n,
  with canonical rendering, so distinct entries are distinct columns); the
  presence of the Total column is a flag; remaining descriptive columns are
  kept by name only, since the engine never reads or writes their values.
  The invariant fields record that descriptive column names never match the
  period-column pattern and that column names are unique, as is the case
  for tables produced by the pandas readers the code uses.
* Rows carry the two join keys (WBS Element, Fiscal Year), the period
  values as a function from the period number, and the Total value.
* The pandas left merge is modelled as a genuine left join (each left row
  produces one output row per matching right row, or one row with an
  absent value when nothing matches); that the join does not duplicate
  rows is proved from key uniqueness of the aggregation, not assumed.
* Series.round(0) is numpy rounding: round half to even.
* Tables lacking the key columns (WBS Element, Fiscal Year) make the code
  raise and land in the generic exception handler; such inputs are outside
  the model, whose row structure presupposes the key columns.
-/

namespace Analisador

/-- Numpy / pandas round-to-zero-decimals: nearest integer, ties to even.
This is what Series.round(0) applies at line 62 of src/app.py. -/
def roundHalfEven (q : ℚ) : ℤ :=
  let n : ℤ := q.floor
  let r : ℚ := q - (n : ℚ)
  if r < (1 : ℚ)/2 then n
  else if (1 : ℚ)/2 < r then n + 1
  else if n % 2 = 0 then n else n + 1

/-- Grouping key of the expenditure aggregation: (Fiscal Year, WBS Element, Period). -/
abbrev GKey := Int × String × Nat

/-- One expenditure row: the four columns the engine reads
(Fiscal Year, WBS Element, Period, Vbl. value/Obj. curr).  Dropping the
Unnamed columns of the expenditure table does not touch these four, so the
model keeps only them. -/
structure GRow where
  fy : Int
  wbs : String
  period : Nat
  value : ℚ

/-- The groupby key of an expenditure row (line 47 of src/app.py). -/
def GRow.key (x : GRow) : GKey := (x.fy, x.wbs, x.period)

/-- Sum of the value column over the expenditure rows with a given key. -/
def sumFor (g : List GRow) (k : GKey) : ℚ :=
  ((g.filter (fun x => x.key = k)).map (fun x => x.value)).sum

/-- Line 47: df_gastos.groupby([Fiscal Year, WBS Element, Period])[value].sum().
The result is one row per distinct key carrying the summed value.  (pandas
sorts the group keys; the order is irrelevant here because the keys are
unique, which is what every use of the aggregation depends on, so the model
lists the keys in first-occurrence order.) -/
def agrupar (g : List GRow) : List (GKey × ℚ) :=
  ((g.map GRow.key).dedup).map (fun k => (k, sumFor g k))

/-- Sum of the values of the expenditure rows with key (ano, w, p), the way
the claims describe it. -/
def expSum (g : List GRow) (ano : Int) (w : String) (p : Nat) : ℚ :=
  ((g.filter (fun x => x.fy = ano ∧ x.wbs = w ∧ x.period = p)).map (fun x => x.value)).sum

/-- One budget row: join keys, period column values (indexed by the period
number of the column), and the Total value (meaningful only when the table
has the Total column; the engine reads it only after checking that). -/
structure BRow where
  wbs : String
  fy : Int
  pvals : Nat → ℚ
  total : ℚ

/-- Canonical name of the period column with number n. -/
def periodColName (n : Nat) : String := "Period " ++ toString n

/-- Strip a leading character sequence: some rest when the second list
starts with the first, none otherwise.  (Character-level model of
str.startswith and of anchored literal regex matching.) -/
def stripLead : List Char → List Char → Option (List Char)
  | [], rest => some rest
  | _ :: _, [] => none
  | a :: as, b :: bs => if a = b then stripLead as bs else none

/-- The regex of line 67 (caret, the Period tag, digits, dollar): the
literal seven-character Period-and-blank tag, then one or more digits,
then the end of the name. -/
def matchesPeriodName (s : String) : Bool :=
  match stripLead ("Period ").data s.data with
  | none => false
  | some rest => !rest.isEmpty && rest.all (fun c => c.isDigit)

/-- Numeric value of a digit string, the way int() reads it. -/
def digitsToNat (l : List Char) : Nat := l.foldl (fun n c => 10 * n + (c.toNat - 48)) 0

/-- Lexicographic comparison of character lists by code point, the string
order Python sorted uses. -/
def strLeAux : List Char → List Char → Bool
  | [], _ => true
  | _ :: _, [] => false
  | a :: as, b :: bs =>
    if a.toNat < b.toNat then true
    else if b.toNat < a.toNat then false
    else strLeAux as bs

/-- Lexicographic string comparison by code point. -/
def strLe (a b : String) : Bool := strLeAux a.data b.data

/-- A budget table.  The two invariant fields record facts true of any
spreadsheet the code reads: column names are unique, and the descriptive
columns are exactly the ones not matching the period pattern (the period
columns being recorded separately, by number). -/
structure BTable where
  periodCols : List Nat
  otherCols : List String
  hasTotal : Bool
  rows : List BRow
  otherCols_ok : ∀ s ∈ otherCols, matchesPeriodName s = false
  periodCols_nodup : periodCols.Nodup

/-- Lines 43-44: drop every column whose name starts with Unnamed.  Key,
period and Total column names never start with Unnamed, so only the
descriptive columns are affected. -/
def limpar (t : BTable) : BTable :=
  { t with
    otherCols := t.otherCols.filter (fun s => !(stripLead ("Unnamed").data s.data).isSome),
    otherCols_ok := fun s hs => t.otherCols_ok s (List.mem_of_mem_filter hs) }

/-- Lines 54-64, body of one loop iteration for period p, given the
aggregated expenditures ag:
select the aggregated rows of (period = p, fiscal year = ano); left-merge
them onto the budget rows by (WBS Element, Fiscal Year) - when the
selection is empty the temporary column is wholly absent (pd.NA) instead;
then, for every row of the target fiscal year, overwrite column Period p
with the joined amount, absent defaulting to 0, rounded; other rows keep
their value.  Dropping the temporary column is the projection back to BRow. -/
def mergeStep (ano : Int) (ag : List (GKey × ℚ)) (p : Nat) (rs : List BRow) : List BRow :=
  ((if ag.filter (fun kv => kv.1.2.2 = p ∧ kv.1.1 = ano) = []
    then rs.map (fun r => (r, (none : Option ℚ)))
    else rs.flatMap (fun r =>
      if (ag.filter (fun kv => kv.1.2.2 = p ∧ kv.1.1 = ano)).filter
           (fun kv => kv.1.2.1 = r.wbs ∧ kv.1.1 = r.fy) = []
      then [(r, none)]
      else ((ag.filter (fun kv => kv.1.2.2 = p ∧ kv.1.1 = ano)).filter
              (fun kv => kv.1.2.1 = r.wbs ∧ kv.1.1 = r.fy)).map
             (fun kv => (r, some kv.2)))) :
    List (BRow × Option ℚ)).map (fun ro =>
      if ro.1.fy = ano then
        { ro.1 with pvals := Function.update ro.1.pvals p ((roundHalfEven (ro.2.getD 0) : ℤ) : ℚ) }
      else ro.1)

/-- What one loop iteration does to one budget row (proved equal to
mergeStep below): a target-year row gets column Period p overwritten with
the rounded aggregated expenditure of its key, other rows are untouched. -/
def stepRow (g : List GRow) (ano : Int) (p : Nat) (r : BRow) : BRow :=
  if r.fy = ano then
    { r with pvals := Function.update r.pvals p ((roundHalfEven (expSum g ano r.wbs p) : ℤ) : ℚ) }
  else r

/-- stepRow guarded by the column-existence test of line 52. -/
def stepOr (g : List GRow) (ano : Int) (pc : List Nat) (p : Nat) (r : BRow) : BRow :=
  if p ∈ pc then stepRow g ano p r else r

/-- Row-level view of the whole merge loop over the period list L. -/
def mergeRowFold (g : List GRow) (ano : Int) (pc : List Nat) (L : List Nat) (r : BRow) : BRow :=
  L.foldl (fun r p => stepOr g ano pc p r) r

/-- Lines 50-64: the merge loop, iterating periodo_num over
range(periodo_inicial, periodo_final + 1) and skipping periods whose
column Period periodo_num does not exist.  The set of columns never
changes during the loop (the temporary column is dropped each iteration),
so the existence test against the current columns is the test against the
original period columns. -/
def etapa1 (t : BTable) (ag : List (GKey × ℚ)) (ano : Int) (ps pe : Nat) : BTable :=
  { t with
    rows := (List.range' ps (pe + 1 - ps)).foldl
      (fun rs p => if p ∈ t.periodCols then mergeStep ano ag p rs else rs) t.rows }

/-- Line 67: sorted(col for col in columns if re.match(pattern, col)).
Python sorted on strings is lexicographic.  In the model the columns
matching the pattern are exactly the rendered period columns: the
descriptive columns never match (invariant otherCols_ok) and the key and
Total column names do not match either. -/
def colunasPeriodo (t : BTable) : List String :=
  List.insertionSort (fun a b : String => strLe a b = true) (t.periodCols.map periodColName)

/-- Recover the period number from a discovered column name (the seven
dropped characters are the Period tag). -/
def parsePeriodName (s : String) : Nat := digitsToNat (s.data.drop 7)

/-- Line 71: per-row sum of the discovered period columns. -/
def rowPeriodSum (cols : List Nat) (r : BRow) : ℚ := (cols.map r.pvals).sum

/-- The rows of one WBS Element group (pandas groupby by WBS Element). -/
def grupoWBS (rs : List BRow) (w : String) : List BRow :=
  rs.filter (fun x => x.wbs = w)

/-- Line 72: groupby(WBS Element) transform sum of the per-row period sums. -/
def totalAcumuladoWBS (cols : List Nat) (rs : List BRow) (w : String) : ℚ :=
  ((grupoWBS rs w).map (rowPeriodSum cols)).sum

/-- Line 76: groupby(WBS Element) transform sum of the Total column. -/
def totalOrcadoWBS (rs : List BRow) (w : String) : ℚ :=
  ((grupoWBS rs w).map (fun x => x.total)).sum

/-- Line 78: groupby(WBS Element) transform max of Fiscal Year.  Seeding
the fold with the fiscal year of the row itself is exact because the row
belongs to its own group, so the seed is one of the folded elements. -/
def maxAnoWBS (rs : List BRow) (r : BRow) : Int :=
  ((grupoWBS rs r.wbs).map (fun x => x.fy)).foldl max r.fy

/-- An output row: a budget row plus the three derived columns, each
absent (pd.NA) on masked rows. -/
structure ORow where
  wbs : String
  fy : Int
  pvals : Nat → ℚ
  total : ℚ
  totalAcumulado : Option ℚ
  totalOrcado : Option ℚ
  saldo : Option ℚ

/-- The table returned on full success. -/
structure OTable where
  periodCols : List Nat
  otherCols : List String
  rows : List ORow

/-- Result of the engine: full success with the derived table, the
no-period-columns warning of lines 68-70 carrying the merged-but-untouched
table, or the hard missing-Total error of lines 73-75 (st.error plus
return None), which yields no table. -/
inductive RResult where
  | ok (t : OTable)
  | warn (t : BTable)
  | errMissingTotal

/-- Lines 71-80 for one row: compute the three derived values from the
whole-table groups, then lines 78-80 blank all three on every row whose
fiscal year is below the maximum of its project. -/
def derivarRow (nums : List Nat) (rs : List BRow) (r : BRow) : ORow :=
  if r.fy < maxAnoWBS rs r then
    ⟨r.wbs, r.fy, r.pvals, r.total, none, none, none⟩
  else
    ⟨r.wbs, r.fy, r.pvals, r.total,
     some (totalAcumuladoWBS nums rs r.wbs),
     some (totalOrcadoWBS rs r.wbs),
     some (totalOrcadoWBS rs r.wbs - totalAcumuladoWBS nums rs r.wbs)⟩

/-- Lines 71-81 after the two early returns: add the three derived
columns, mask the non-latest years, and drop the ephemeral per-row column
(the projection into ORow). -/
def derivar (t : BTable) : OTable :=
  { periodCols := t.periodCols, otherCols := t.otherCols,
    rows := t.rows.map (derivarRow ((colunasPeriodo t).map parsePeriodName) t.rows) }

/-- Lines 67-82: discover the period columns; empty discovery means the
warning return of the table as it stands (before any derived column is
computed); a missing Total column means the hard error with no table;
otherwise the derived table.  The code computes the per-row sums and Total
Acumulado before testing for Total, but on the error path that work is
discarded with the local table, so testing first is observationally the
same. -/
def etapa2 (t : BTable) : RResult :=
  if colunasPeriodo t = [] then RResult.warn t
  else if t.hasTotal = false then RResult.errMissingTotal
  else RResult.ok (derivar t)

/-- The Reconciliation Engine, lines 42-82 of src/app.py: strip Unnamed
columns, aggregate the expenditures, run the per-period merge loop, then
the derived-column stage.  (Stripping the Unnamed columns of the
expenditure table is a no-op on the four columns the engine reads and is
therefore absorbed into the GRow projection.) -/
def reconcile (orc : BTable) (gastos : List GRow) (ano : Int) (ps pe : Nat) : RResult :=
  etapa2 (etapa1 (limpar orc) (agrupar gastos) ano ps pe)

/-- The maximum fiscal year among the rows of the project of a given
output row (seeded with the fiscal year of the row itself, which belongs
to the group). -/
def projMaxFY (rs : List ORow) (r : ORow) : Int :=
  ((rs.filter (fun x => x.wbs = r.wbs)).map (fun x => x.fy)).foldl max r.fy

/-- Fallback table for the ok-projection below. -/
def otDummy : OTable := { periodCols := [], otherCols := [], rows := [] }

/-- Project the table out of a successful result. -/
def okTableOf (r : RResult) : OTable :=
  match r with
  | RResult.ok t => t
  | _ => otDummy

/-- The budget table of the concrete scenario of the spec: one project P1,
fiscal years 2025 and 2026, columns Period 1..3, Total = 300 on each row.
The initial period values are in generic position: 10, 11, 12 on the 2025
row and 7 everywhere on the 2026 row (the scenario requires the 2026
values to be non-zero and leaves the 2025 values unspecified). -/
def exOrc : BTable :=
  { periodCols := [1, 2, 3],
    otherCols := ["Desc A", "Unnamed: 5"],
    hasTotal := true,
    rows :=
      [ ⟨"P1", 2025, fun n => if n = 1 then 10 else if n = 2 then 11 else if n = 3 then 12 else 0, 300⟩,
        ⟨"P1", 2026, fun _ => 7, 300⟩ ],
    otherCols_ok := by decide,
    periodCols_nodup := by decide }

/-- The expenditures of the concrete scenario: (2026, P1, 1, 50) and
(2026, P1, 1, 25). -/
def exG : List GRow := [⟨2026, "P1", 1, 50⟩, ⟨2026, "P1", 1, 25⟩]

/-- The output table of the concrete scenario. -/
def exOut : OTable := okTableOf (reconcile exOrc exG 2026 1 3)

/-- A budget table without the Total column and without any period column. -/
def exNoTotal : BTable :=
  { periodCols := [],
    otherCols := ["Desc A"],
    hasTotal := false,
    rows := [⟨"P1", 2026, fun _ => 0, 0⟩],
    otherCols_ok := by decide,
    periodCols_nodup := by decide }

/-- A budget table with a period column but without the Total column. -/
def exNoTotal2 : BTable :=
  { periodCols := [1],
    otherCols := [],
    hasTotal := false,
    rows := [⟨"P1", 2026, fun _ => 5, 0⟩],
    otherCols_ok := by decide,
    periodCols_nodup := by decide }

/-- A budget table with Total but no period columns. -/
def exNoPeriods : BTable :=
  { periodCols := [],
    otherCols := ["Desc B", "Unnamed: 3"],
    hasTotal := true,
    rows := [⟨"P2", 2025, fun _ => 1, 40⟩, ⟨"P2", 2026, fun _ => 2, 60⟩],
    otherCols_ok := by decide,
    periodCols_nodup := by decide }

/-- A budget table holding both a Period 2 and a Period 10 column. -/
def exP210 : BTable :=
  { periodCols := [2, 10],
    otherCols := [],
    hasTotal := true,
    rows := [],
    otherCols_ok := by decide,
    periodCols_nodup := by decide }

/-! ### Basic lemmas about the per-row merge step -/

theorem stepRow_wbs (g : List GRow) (ano : Int) (p : Nat) (r : BRow) :
    (stepRow g ano p r).wbs = r.wbs := by
  unfold stepRow; split <;> rfl

theorem stepRow_fy (g : List GRow) (ano : Int) (p : Nat) (r : BRow) :
    (stepRow g ano p r).fy = r.fy := by
  unfold stepRow; split <;> rfl

theorem stepRow_total (g : List GRow) (ano : Int) (p : Nat) (r : BRow) :
    (stepRow g ano p r).total = r.total := by
  unfold stepRow; split <;> rfl

theorem stepRow_of_ne (g : List GRow) (ano : Int) (p : Nat) (r : BRow) (h : r.fy ≠ ano) :
    stepRow g ano p r = r := by
  unfold stepRow; rw [if_neg h]

theorem stepRow_pvals_ne (g : List GRow) (ano : Int) (p q : Nat) (r : BRow) (h : q ≠ p) :
    (stepRow g ano p r).pvals q = r.pvals q := by
  unfold stepRow; split
  · exact Function.update_noteq h _ _
  · rfl

theorem stepOr_wbs (g : List GRow) (ano : Int) (pc : List Nat) (p : Nat) (r : BRow) :
    (stepOr g ano pc p r).wbs = r.wbs := by
  unfold stepOr; split
  · exact stepRow_wbs g ano p r
  · rfl

theorem stepOr_fy (g : List GRow) (ano : Int) (pc : List Nat) (p : Nat) (r : BRow) :
    (stepOr g ano pc p r).fy = r.fy := by
  unfold stepOr; split
  · exact stepRow_fy g ano p r
  · rfl

theorem stepOr_total (g : List GRow) (ano : Int) (pc : List Nat) (p : Nat) (r : BRow) :
    (stepOr g ano pc p r).total = r.total := by
  unfold stepOr; split
  · exact stepRow_total g ano p r
  · rfl

theorem stepOr_of_ne (g : List GRow) (ano : Int) (pc : List Nat) (p : Nat) (r : BRow)
    (h : r.fy ≠ ano) : stepOr g ano pc p r = r := by
  unfold stepOr; split
  · exact stepRow_of_ne g ano p r h
  · rfl

theorem stepOr_pvals_ne (g : List GRow) (ano : Int) (pc : List Nat) (p q : Nat) (r : BRow)
    (h : q ≠ p) : (stepOr g ano pc p r).pvals q = r.pvals q := by
  unfold stepOr; split
  · exact stepRow_pvals_ne g ano p q r h
  · rfl

/-! ### The aggregation has unique keys and computes the key sums -/

theorem filter_pair_map {α β : Type} [DecidableEq α] (s : α → β) (k : α) (l : List α)
    (h : l.Nodup) :
    ((l.map (fun a => (a, s a))).filter (fun kv => kv.1 = k))
      = if k ∈ l then [(k, s k)] else [] := by
  induction l with
  | nil => simp
  | cons a l ih =>
    rw [List.nodup_cons] at h
    by_cases hak : a = k
    · subst hak
      have hfe : ((l.map (fun a => (a, s a))).filter (fun kv => kv.1 = a)) = [] := by
        rw [List.filter_eq_nil_iff]
        intro kv hkv
        simp only [List.mem_map] at hkv
        obtain ⟨b, hb, rfl⟩ := hkv
        simp only [decide_eq_true_eq]
        intro hba
        exact h.1 (hba ▸ hb)
      simp [List.filter_cons, hfe]
    · simp only [List.map_cons, List.filter_cons, List.mem_cons]
      have hd : (decide ((a, s a).1 = k)) = false := by simp [hak]
      rw [hd]
      simp only [Bool.false_eq_true, if_false, ih h.2]
      have hmem : (k = a ∨ k ∈ l) ↔ k ∈ l := by
        constructor
        · rintro (h' | h')
          · exact absurd h'.symm hak
          · exact h'
        · exact Or.inr
      simp [hmem]

theorem agrupar_filter_key (g : List GRow) (k : GKey) :
    (agrupar g).filter (fun kv => kv.1 = k)
      = if k ∈ g.map GRow.key then [(k, sumFor g k)] else [] := by
  unfold agrupar
  rw [filter_pair_map (sumFor g) k _ (List.nodup_dedup _)]
  simp [List.mem_dedup]

theorem sumFor_eq_expSum (g : List GRow) (ano : Int) (w : String) (p : Nat) :
    sumFor g (ano, w, p) = expSum g ano w p := by
  unfold sumFor expSum
  have h : g.filter (fun x => x.key = (ano, w, p))
      = g.filter (fun x => x.fy = ano ∧ x.wbs = w ∧ x.period = p) := by
    apply List.filter_congr
    intro x _
    simp [GRow.key, Prod.ext_iff]
  rw [h]

theorem expSum_eq_zero_of_not_mem (g : List GRow) (ano : Int) (w : String) (p : Nat)
    (h : (ano, w, p) ∉ g.map GRow.key) : expSum g ano w p = 0 := by
  unfold expSum
  have : g.filter (fun x => x.fy = ano ∧ x.wbs = w ∧ x.period = p) = [] := by
    rw [List.filter_eq_nil_iff]
    intro x hx
    simp only [decide_eq_true_eq]
    rintro ⟨h1, h2, h3⟩
    exact h (List.mem_map.mpr ⟨x, hx, by simp [GRow.key, h1, h2, h3]⟩)
  rw [this]
  rfl

theorem agrupar_mem_of_key_mem (g : List GRow) (k : GKey) (h : k ∈ g.map GRow.key) :
    (k, sumFor g k) ∈ agrupar g := by
  unfold agrupar
  exact List.mem_map.mpr ⟨k, List.mem_dedup.mpr h, rfl⟩

/-- If the selection of aggregated rows for (period p, year ano) is empty,
no raw expenditure row has fiscal year ano and period p at all, so each
key sum for that pair is the empty sum. -/
theorem expSum_eq_zero_of_gdp_nil (g : List GRow) (ano : Int) (p : Nat)
    (h : (agrupar g).filter (fun kv => kv.1.2.2 = p ∧ kv.1.1 = ano) = []) (w : String) :
    expSum g ano w p = 0 := by
  apply expSum_eq_zero_of_not_mem
  intro hmem
  have h1 : ((ano, w, p), sumFor g (ano, w, p)) ∈ agrupar g := agrupar_mem_of_key_mem g _ hmem
  have h2 : ((ano, w, p), sumFor g (ano, w, p))
      ∈ (agrupar g).filter (fun kv => kv.1.2.2 = p ∧ kv.1.1 = ano) := by
    rw [List.mem_filter]
    exact ⟨h1, by simp⟩
  rw [h] at h2
  exact absurd h2 (List.not_mem_nil _)

/-- The matches of one budget row of the target year against the selected
aggregated rows: the single aggregated entry of its key when the key has
expenditures, nothing otherwise. -/
theorem ms_eq_of_target (g : List GRow) (ano : Int) (p : Nat) (r : BRow) (hfy : r.fy = ano) :
    (((agrupar g).filter (fun kv => kv.1.2.2 = p ∧ kv.1.1 = ano)).filter
        (fun kv => kv.1.2.1 = r.wbs ∧ kv.1.1 = r.fy))
      = if (ano, r.wbs, p) ∈ g.map GRow.key
          then [((ano, r.wbs, p), sumFor g (ano, r.wbs, p))] else [] := by
  subst hfy
  rw [List.filter_filter]
  have hcongr : (agrupar g).filter
        (fun kv => decide (kv.1.2.1 = r.wbs ∧ kv.1.1 = r.fy)
          && decide (kv.1.2.2 = p ∧ kv.1.1 = r.fy))
      = (agrupar g).filter (fun kv => kv.1 = (r.fy, r.wbs, p)) := by
    apply List.filter_congr
    intro kv _
    rw [Bool.and_eq_decide, decide_eq_decide]
    constructor
    · rintro ⟨⟨h1, h2⟩, h3, h4⟩
      simp [Prod.ext_iff, h4, h1, h3]
    · intro h
      simp only [Prod.ext_iff] at h
      exact ⟨⟨h.2.1, h.1⟩, h.2.2, h.1⟩
  rw [hcongr, agrupar_filter_key]

/-- A budget row of a different fiscal year matches nothing: every
selected aggregated row carries fiscal year ano. -/
theorem ms_nil_of_ne (g : List GRow) (ano : Int) (p : Nat) (r : BRow) (hfy : r.fy ≠ ano) :
    (((agrupar g).filter (fun kv => kv.1.2.2 = p ∧ kv.1.1 = ano)).filter
        (fun kv => kv.1.2.1 = r.wbs ∧ kv.1.1 = r.fy)) = [] := by
  rw [List.filter_eq_nil_iff]
  intro kv hkv
  rw [List.mem_filter] at hkv
  have h2 := hkv.2
  simp only [decide_eq_true_eq] at h2
  simp only [decide_eq_true_eq]
  rintro ⟨_, hfy2⟩
  exact hfy (by rw [← hfy2, h2.2])

theorem flatMap_singleton_eq_map {α β : Type} (f : α → List β) (g0 : α → β) (l : List α)
    (h : ∀ a ∈ l, f a = [g0 a]) : l.flatMap f = l.map g0 := by
  induction l with
  | nil => rfl
  | cons a l ih =>
    rw [List.flatMap_cons, List.map_cons, h a (List.mem_cons_self a l),
      ih (fun b hb => h b (List.mem_cons_of_mem a hb))]
    rfl

/-- The whole body of one merge-loop iteration acts on each budget row
independently, as stepRow: the left join cannot duplicate rows because
the aggregation keys are unique. -/
theorem mergeStep_eq_map (g : List GRow) (ano : Int) (p : Nat) (rs : List BRow) :
    mergeStep ano (agrupar g) p rs = rs.map (stepRow g ano p) := by
  unfold mergeStep
  by_cases hempty :
      (agrupar g).filter (fun kv => kv.1.2.2 = p ∧ kv.1.1 = ano) = []
  · rw [if_pos hempty, List.map_map]
    apply List.map_congr_left
    intro r _
    show (if r.fy = ano then _ else r) = stepRow g ano p r
    unfold stepRow
    by_cases hfy : r.fy = ano
    · rw [if_pos hfy, if_pos hfy]
      have hz : expSum g ano r.wbs p = 0 := expSum_eq_zero_of_gdp_nil g ano p hempty r.wbs
      simp [hz, Option.getD]
    · rw [if_neg hfy, if_neg hfy]
  · rw [if_neg hempty]
    rw [flatMap_singleton_eq_map _
      (fun r => (r, if h : r.fy = ano ∧ (ano, r.wbs, p) ∈ g.map GRow.key
        then some (sumFor g (ano, r.wbs, p)) else none)) rs ?hsingle]
    case hsingle =>
      intro r _
      by_cases hfy : r.fy = ano
      · rw [ms_eq_of_target g ano p r hfy]
        by_cases hk : (ano, r.wbs, p) ∈ g.map GRow.key
        · simp [hk, hfy]
        · simp [hk, hfy]
      · rw [ms_nil_of_ne g ano p r hfy]
        simp [hfy]
    rw [List.map_map]
    apply List.map_congr_left
    intro r _
    unfold stepRow
    by_cases hfy : r.fy = ano
    · by_cases hk : (ano, r.wbs, p) ∈ g.map GRow.key
      · have hk2 : ∃ a ∈ g, a.key = (ano, r.wbs, p) := by
          simpa using List.mem_map.mp hk
        simp [hfy, hk2, sumFor_eq_expSum]
      · have hk2 : ¬∃ a ∈ g, a.key = (ano, r.wbs, p) := by
          intro hc
          exact hk (List.mem_map.mpr (by simpa using hc))
        have hz : expSum g ano r.wbs p = 0 := expSum_eq_zero_of_not_mem g ano r.wbs p hk
        simp [hfy, hk2, hz]
    · simp [hfy]

/-! ### The merge loop acts row by row -/

theorem foldl_merge_map (g : List GRow) (ano : Int) (pc : List Nat) :
    ∀ (L : List Nat) (rs : List BRow),
      L.foldl (fun rs p => if p ∈ pc then mergeStep ano (agrupar g) p rs else rs) rs
        = rs.map (fun r => mergeRowFold g ano pc L r) := by
  intro L
  induction L with
  | nil => intro rs; simp [mergeRowFold]
  | cons p L ih =>
    intro rs
    rw [List.foldl_cons]
    by_cases hp : p ∈ pc
    · rw [if_pos hp, mergeStep_eq_map, ih, List.map_map]
      apply List.map_congr_left
      intro r _
      simp [mergeRowFold, List.foldl_cons, stepOr, hp]
    · rw [if_neg hp, ih]
      apply List.map_congr_left
      intro r _
      simp [mergeRowFold, List.foldl_cons, stepOr, hp]

theorem etapa1_rows (t : BTable) (g : List GRow) (ano : Int) (ps pe : Nat) :
    (etapa1 t (agrupar g) ano ps pe).rows
      = t.rows.map (fun r => mergeRowFold g ano t.periodCols (List.range' ps (pe + 1 - ps)) r) :=
  foldl_merge_map g ano t.periodCols (List.range' ps (pe + 1 - ps)) t.rows

theorem etapa1_periodCols (t : BTable) (ag : List (GKey × ℚ)) (ano : Int) (ps pe : Nat) :
    (etapa1 t ag ano ps pe).periodCols = t.periodCols := rfl

theorem etapa1_otherCols (t : BTable) (ag : List (GKey × ℚ)) (ano : Int) (ps pe : Nat) :
    (etapa1 t ag ano ps pe).otherCols = t.otherCols := rfl

theorem etapa1_hasTotal (t : BTable) (ag : List (GKey × ℚ)) (ano : Int) (ps pe : Nat) :
    (etapa1 t ag ano ps pe).hasTotal = t.hasTotal := rfl

theorem limpar_periodCols (t : BTable) : (limpar t).periodCols = t.periodCols := rfl

theorem limpar_hasTotal (t : BTable) : (limpar t).hasTotal = t.hasTotal := rfl

theorem limpar_rows (t : BTable) : (limpar t).rows = t.rows := rfl

theorem mergeRowFold_wbs (g : List GRow) (ano : Int) (pc : List Nat) :
    ∀ (L : List Nat) (r : BRow), (mergeRowFold g ano pc L r).wbs = r.wbs := by
  intro L
  induction L with
  | nil => intro r; rfl
  | cons p L ih =>
    intro r
    calc (mergeRowFold g ano pc (p :: L) r).wbs
        = (mergeRowFold g ano pc L (stepOr g ano pc p r)).wbs := rfl
      _ = (stepOr g ano pc p r).wbs := ih _
      _ = r.wbs := stepOr_wbs g ano pc p r

theorem mergeRowFold_fy (g : List GRow) (ano : Int) (pc : List Nat) :
    ∀ (L : List Nat) (r : BRow), (mergeRowFold g ano pc L r).fy = r.fy := by
  intro L
  induction L with
  | nil => intro r; rfl
  | cons p L ih =>
    intro r
    calc (mergeRowFold g ano pc (p :: L) r).fy
        = (mergeRowFold g ano pc L (stepOr g ano pc p r)).fy := rfl
      _ = (stepOr g ano pc p r).fy := ih _
      _ = r.fy := stepOr_fy g ano pc p r

theorem mergeRowFold_total (g : List GRow) (ano : Int) (pc : List Nat) :
    ∀ (L : List Nat) (r : BRow), (mergeRowFold g ano pc L r).total = r.total := by
  intro L
  induction L with
  | nil => intro r; rfl
  | cons p L ih =>
    intro r
    calc (mergeRowFold g ano pc (p :: L) r).total
        = (mergeRowFold g ano pc L (stepOr g ano pc p r)).total := rfl
      _ = (stepOr g ano pc p r).total := ih _
      _ = r.total := stepOr_total g ano pc p r

/-- Rows whose fiscal year is not the target year pass through the whole
merge loop untouched. -/
theorem mergeRowFold_of_ne (g : List GRow) (ano : Int) (pc : List Nat) :
    ∀ (L : List Nat) (r : BRow), r.fy ≠ ano → mergeRowFold g ano pc L r = r := by
  intro L
  induction L with
  | nil => intro r _; rfl
  | cons p L ih =>
    intro r h
    calc mergeRowFold g ano pc (p :: L) r
        = mergeRowFold g ano pc L (stepOr g ano pc p r) := rfl
      _ = mergeRowFold g ano pc L r := by rw [stepOr_of_ne g ano pc p r h]
      _ = r := ih r h

/-- Period columns outside the loop range are never written. -/
theorem mergeRowFold_pvals_not_mem (g : List GRow) (ano : Int) (pc : List Nat) (p : Nat) :
    ∀ (L : List Nat) (r : BRow), p ∉ L →
      (mergeRowFold g ano pc L r).pvals p = r.pvals p := by
  intro L
  induction L with
  | nil => intro r _; rfl
  | cons q L ih =>
    intro r hp
    have hpq : p ≠ q := fun h => hp (h ▸ List.mem_cons_self q L)
    have hpL : p ∉ L := fun h => hp (List.mem_cons_of_mem q h)
    calc (mergeRowFold g ano pc (q :: L) r).pvals p
        = (mergeRowFold g ano pc L (stepOr g ano pc q r)).pvals p := rfl
      _ = (stepOr g ano pc q r).pvals p := ih _ hpL
      _ = r.pvals p := stepOr_pvals_ne g ano pc q p r hpq

/-- The value a target-year row ends up with in column Period p, for p in
the loop range and among the existing period columns: the rounded key sum
of its own (project, year, period) key. -/
theorem mergeRowFold_pvals_target (g : List GRow) (ano : Int) (pc : List Nat) (p : Nat) :
    ∀ (L : List Nat) (r : BRow), L.Nodup → r.fy = ano → p ∈ L → p ∈ pc →
      (mergeRowFold g ano pc L r).pvals p
        = ((roundHalfEven (expSum g ano r.wbs p) : ℤ) : ℚ) := by
  intro L
  induction L with
  | nil => intro r _ _ hpL _; exact absurd hpL (List.not_mem_nil p)
  | cons q L ih =>
    intro r hn hfy hpL hpc
    rw [List.nodup_cons] at hn
    rcases List.mem_cons.mp hpL with hpq | hpL2
    · subst hpq
      have h1 : mergeRowFold g ano pc (p :: L) r
          = mergeRowFold g ano pc L (stepRow g ano p r) := by
        show mergeRowFold g ano pc L (stepOr g ano pc p r) = _
        rw [stepOr]
        rw [if_pos hpc]
      rw [h1, mergeRowFold_pvals_not_mem g ano pc p L _ hn.1]
      unfold stepRow
      rw [if_pos hfy]
      exact Function.update_same p _ r.pvals
    · have h1 : mergeRowFold g ano pc (q :: L) r
          = mergeRowFold g ano pc L (stepOr g ano pc q r) := rfl
      rw [h1, ih _ hn.2 (by rw [stepOr_fy]; exact hfy) hpL2 hpc, stepOr_wbs]

/-! ### The derived-column stage -/

theorem derivarRow_wbs (nums : List Nat) (rs : List BRow) (r : BRow) :
    (derivarRow nums rs r).wbs = r.wbs := by
  unfold derivarRow; split <;> rfl

theorem derivarRow_fy (nums : List Nat) (rs : List BRow) (r : BRow) :
    (derivarRow nums rs r).fy = r.fy := by
  unfold derivarRow; split <;> rfl

theorem derivarRow_pvals (nums : List Nat) (rs : List BRow) (r : BRow) :
    (derivarRow nums rs r).pvals = r.pvals := by
  unfold derivarRow; split <;> rfl

theorem derivarRow_total (nums : List Nat) (rs : List BRow) (r : BRow) :
    (derivarRow nums rs r).total = r.total := by
  unfold derivarRow; split <;> rfl

theorem derivar_rows (t : BTable) :
    (derivar t).rows = t.rows.map (derivarRow ((colunasPeriodo t).map parsePeriodName) t.rows) :=
  rfl

theorem colunasPeriodo_eq_nil (t : BTable) : colunasPeriodo t = [] ↔ t.periodCols = [] := by
  unfold colunasPeriodo
  constructor
  · intro h
    have h1 := List.length_insertionSort
      (fun a b : String => strLe a b = true) (t.periodCols.map periodColName)
    rw [h, List.length_nil, List.length_map] at h1
    exact List.length_eq_zero.mp h1.symm
  · intro h
    rw [h]
    rfl

theorem etapa2_eq_ok {t : BTable} {out : OTable} (h : etapa2 t = RResult.ok out) :
    colunasPeriodo t ≠ [] ∧ t.hasTotal = true ∧ out = derivar t := by
  unfold etapa2 at h
  by_cases h1 : colunasPeriodo t = []
  · rw [if_pos h1] at h; exact absurd h (by simp)
  · rw [if_neg h1] at h
    by_cases h2 : t.hasTotal = false
    · rw [if_pos h2] at h; exact absurd h (by simp)
    · rw [if_neg h2] at h
      injection h with h3
      exact ⟨h1, by revert h2; cases t.hasTotal <;> simp, h3.symm⟩

theorem etapa2_eq_warn {t w : BTable} (h : etapa2 t = RResult.warn w) :
    colunasPeriodo t = [] ∧ w = t := by
  unfold etapa2 at h
  by_cases h1 : colunasPeriodo t = []
  · rw [if_pos h1] at h
    injection h with h2
    exact ⟨h1, h2.symm⟩
  · rw [if_neg h1] at h
    by_cases h2 : t.hasTotal = false
    · rw [if_pos h2] at h; exact absurd h (by simp)
    · rw [if_neg h2] at h; exact absurd h (by simp)

theorem etapa2_of_nil {t : BTable} (h : colunasPeriodo t = []) : etapa2 t = RResult.warn t := by
  unfold etapa2
  rw [if_pos h]

theorem etapa2_of_missing_total {t : BTable} (h1 : colunasPeriodo t ≠ [])
    (h2 : t.hasTotal = false) : etapa2 t = RResult.errMissingTotal := by
  unfold etapa2
  rw [if_neg h1, if_pos h2]

theorem foldl_skip_all {t : BTable} (ag : List (GKey × ℚ)) (ano : Int)
    (h : t.periodCols = []) :
    ∀ (L : List Nat) (rs : List BRow),
      L.foldl (fun rs p => if p ∈ t.periodCols then mergeStep ano ag p rs else rs) rs = rs := by
  intro L
  induction L with
  | nil => intro rs; rfl
  | cons p L ih =>
    intro rs
    rw [List.foldl_cons, if_neg (by rw [h]; exact List.not_mem_nil p)]
    exact ih rs

/-- With no period columns at all, every loop iteration hits the column
test of line 52 and skips, so the merge stage is the identity. -/
theorem etapa1_of_no_pcols (t : BTable) (ag : List (GKey × ℚ)) (ano : Int) (ps pe : Nat)
    (h : t.periodCols = []) : etapa1 t ag ano ps pe = t := by
  unfold etapa1
  rw [foldl_skip_all ag ano h]

/-- Shared helper: a budget table with no period columns comes back
unchanged (up to Unnamed stripping) with the warning signal. -/
theorem reconcile_no_pcols (orc : BTable) (g : List GRow) (ano : Int) (ps pe : Nat)
    (h : orc.periodCols = []) :
    reconcile orc g ano ps pe = RResult.warn (limpar orc) := by
  unfold reconcile
  rw [etapa1_of_no_pcols _ _ _ _ _ (by rw [limpar_periodCols]; exact h)]
  exact etapa2_of_nil ((colunasPeriodo_eq_nil (limpar orc)).mpr h)

/-- The fold seed is a lower bound of a fold by max. -/
theorem le_foldl_max : ∀ (L : List Int) (d : Int), d ≤ L.foldl max d := by
  intro L
  induction L with
  | nil => intro d; exact le_refl d
  | cons a L ih =>
    intro d
    exact le_trans (le_max_left d a) (ih (max d a))

/-- Filtering by project and reading fiscal years commutes with any
row transformation preserving both fields. -/
theorem filtmap_fy (f : BRow → ORow) (hw : ∀ r, (f r).wbs = r.wbs)
    (hf : ∀ r, (f r).fy = r.fy) (w : String) :
    ∀ l : List BRow,
      ((l.map f).filter (fun x => x.wbs = w)).map (fun x => x.fy)
        = (l.filter (fun x => x.wbs = w)).map (fun x => x.fy) := by
  intro l
  induction l with
  | nil => rfl
  | cons r l ih =>
    by_cases hr : r.wbs = w
    · simp [List.filter_cons, hw, hf, hr, ih]
    · simp [List.filter_cons, hw, hf, hr, ih]

/-! ### The claims -/

/-- C5: for every input whose budget table has no column matching the
Period-number pattern, reconcile emits the warning signal (not an error)
and returns the input budget table unchanged apart from the removal of the
Unnamed placeholder columns; the per-period merge writes nothing, and no
derived column is added (the warning result carries a plain budget table,
which by construction has no derived columns). -/
theorem claim5_no_period_columns_warning (orc : BTable) (g : List GRow) (ano : Int)
    (ps pe : Nat) (h : orc.periodCols = []) :
    reconcile orc g ano ps pe = RResult.warn (limpar orc) :=
  reconcile_no_pcols orc g ano ps pe h

/-- Witness for C5 at a concrete input: a two-row table with Total but no
period columns comes back as the warning carrying the stripped input. -/
theorem claim5_witness :
    exNoPeriods.periodCols = [] ∧
      reconcile exNoPeriods exG 2026 1 12 = RResult.warn (limpar exNoPeriods) :=
  ⟨rfl, claim5_no_period_columns_warning exNoPeriods exG 2026 1 12 rfl⟩

/-- C2, counterexample: a budget table with no Total column but also no
period column does not produce the missing-Total error - the
no-period-columns warning check of line 68 runs first and returns the
table.  This refutes the claim that every input without a Total column
yields a MissingColumnError and no table. -/
theorem claim2_counterexample :
    exNoTotal.hasTotal = false ∧
      reconcile exNoTotal [] 2026 1 12 = RResult.warn (limpar exNoTotal) ∧
      RResult.warn (limpar exNoTotal) ≠ RResult.errMissingTotal :=
  ⟨rfl, reconcile_no_pcols exNoTotal [] 2026 1 12 rfl, fun h => RResult.noConfusion h⟩

/-- C2, amended: for every input whose budget table has at least one
period column and no Total column, reconcile returns the missing-Total
error and no table. -/
theorem claim2_missing_total_error (orc : BTable) (g : List GRow) (ano : Int) (ps pe : Nat)
    (h1 : orc.periodCols ≠ []) (h2 : orc.hasTotal = false) :
    reconcile orc g ano ps pe = RResult.errMissingTotal := by
  unfold reconcile
  apply etapa2_of_missing_total
  · intro hc
    exact h1 ((colunasPeriodo_eq_nil _).mp hc)
  · exact h2

/-- Witness for the amended C2 at a concrete input. -/
theorem claim2_witness :
    exNoTotal2.periodCols ≠ [] ∧ exNoTotal2.hasTotal = false ∧
      reconcile exNoTotal2 [] 2026 1 3 = RResult.errMissingTotal :=
  ⟨by decide, rfl, claim2_missing_total_error exNoTotal2 [] 2026 1 3 (by decide) rfl⟩

/-- C10: with periodEnd below periodStart the engine still runs to
completion with no special treatment: the merge loop executes zero
iterations, leaving the merge stage as the identity on the stripped
table, and the derived-column stage is applied to that unmerged table
exactly as usual. -/
theorem claim10_degenerate_range (orc : BTable) (g : List GRow) (ano : Int) (ps pe : Nat)
    (h : pe < ps) :
    etapa1 (limpar orc) (agrupar g) ano ps pe = limpar orc ∧
      reconcile orc g ano ps pe = etapa2 (limpar orc) := by
  have h0 : pe + 1 - ps = 0 := by omega
  have h1 : etapa1 (limpar orc) (agrupar g) ano ps pe = limpar orc := by
    unfold etapa1
    rw [h0]
    rfl
  exact ⟨h1, by unfold reconcile; rw [h1]⟩

/-- Witness for C10 at a concrete input with an inverted range. -/
theorem claim10_witness :
    (1 : Nat) < 3 ∧
      (etapa1 (limpar exOrc) (agrupar exG) 2026 3 1 = limpar exOrc ∧
        reconcile exOrc exG 2026 3 1 = etapa2 (limpar exOrc)) :=
  ⟨by decide, claim10_degenerate_range exOrc exG 2026 3 1 (by decide)⟩

/-- C9: whenever reconcile returns a table - full success or the warning -
that table has exactly as many rows as the stripped input budget table, in
the same order (row i of the output carries the project code and fiscal
year of row i of the input), with no hypothesis of key uniqueness on the
budget rows: the per-period left joins cannot duplicate rows because the
aggregation keys are unique, and the later steps only touch columns.
(Stripping, modelled by limpar, does not change the rows, so the input
rows are read directly.) -/
theorem claim9_row_preservation (orc : BTable) (g : List GRow) (ano : Int) (ps pe : Nat) :
    (∀ out : OTable, reconcile orc g ano ps pe = RResult.ok out →
      out.rows.length = orc.rows.length ∧
        ∀ (i : Nat) (hi : i < out.rows.length) (hi2 : i < orc.rows.length),
          (out.rows.get ⟨i, hi⟩).wbs = (orc.rows.get ⟨i, hi2⟩).wbs ∧
            (out.rows.get ⟨i, hi⟩).fy = (orc.rows.get ⟨i, hi2⟩).fy) ∧
    (∀ w : BTable, reconcile orc g ano ps pe = RResult.warn w →
      w.rows.length = orc.rows.length ∧
        ∀ (i : Nat) (hi : i < w.rows.length) (hi2 : i < orc.rows.length),
          (w.rows.get ⟨i, hi⟩).wbs = (orc.rows.get ⟨i, hi2⟩).wbs ∧
            (w.rows.get ⟨i, hi⟩).fy = (orc.rows.get ⟨i, hi2⟩).fy) := by
  constructor
  · intro out hok
    unfold reconcile at hok
    obtain ⟨hne, hht, hout⟩ := etapa2_eq_ok hok
    subst hout
    have e2 : (etapa1 (limpar orc) (agrupar g) ano ps pe).rows
        = orc.rows.map (fun r =>
            mergeRowFold g ano orc.periodCols (List.range' ps (pe + 1 - ps)) r) :=
      etapa1_rows (limpar orc) g ano ps pe
    constructor
    · rw [derivar_rows, e2]
      simp
    · intro i hi hi2
      simp only [List.get_eq_getElem, derivar_rows, e2, List.getElem_map]
      exact ⟨by rw [derivarRow_wbs, mergeRowFold_wbs],
        by rw [derivarRow_fy, mergeRowFold_fy]⟩
  · intro w hw
    unfold reconcile at hw
    obtain ⟨hnil, hwt⟩ := etapa2_eq_warn hw
    subst hwt
    have e2 : (etapa1 (limpar orc) (agrupar g) ano ps pe).rows
        = orc.rows.map (fun r =>
            mergeRowFold g ano orc.periodCols (List.range' ps (pe + 1 - ps)) r) :=
      etapa1_rows (limpar orc) g ano ps pe
    constructor
    · rw [e2]
      simp
    · intro i hi hi2
      simp only [List.get_eq_getElem, e2, List.getElem_map]
      exact ⟨mergeRowFold_wbs g ano _ _ _, mergeRowFold_fy g ano _ _ _⟩

/-- Witness for C9: on the concrete scenario the successful output has the
two rows of the input, with the same project codes and fiscal years. -/
theorem claim9_witness :
    reconcile exOrc exG 2026 1 3 = RResult.ok exOut ∧
      exOut.rows.length = exOrc.rows.length ∧
        (exOut.rows.get ⟨0, by decide⟩).wbs = (exOrc.rows.get ⟨0, by decide⟩).wbs ∧
          (exOut.rows.get ⟨0, by decide⟩).fy = (exOrc.rows.get ⟨0, by decide⟩).fy :=
  ⟨rfl,
    ((claim9_row_preservation exOrc exG 2026 1 3).1 exOut rfl).1,
    ((claim9_row_preservation exOrc exG 2026 1 3).1 exOut rfl).2 0 (by decide) (by decide)⟩

/-- C6: a budget row whose fiscal year differs from the target year keeps
the input value of every period column, in the successful output as well
as in the warning output. -/
theorem claim6_nontarget_stability (orc : BTable) (g : List GRow) (ano : Int) (ps pe : Nat) :
    (∀ out : OTable, reconcile orc g ano ps pe = RResult.ok out →
      ∀ (i : Nat) (hi : i < out.rows.length) (hi2 : i < orc.rows.length),
        (orc.rows.get ⟨i, hi2⟩).fy ≠ ano →
        ∀ p ∈ orc.periodCols,
          (out.rows.get ⟨i, hi⟩).pvals p = (orc.rows.get ⟨i, hi2⟩).pvals p) ∧
    (∀ w : BTable, reconcile orc g ano ps pe = RResult.warn w →
      ∀ (i : Nat) (hi : i < w.rows.length) (hi2 : i < orc.rows.length),
        (orc.rows.get ⟨i, hi2⟩).fy ≠ ano →
        ∀ p ∈ orc.periodCols,
          (w.rows.get ⟨i, hi⟩).pvals p = (orc.rows.get ⟨i, hi2⟩).pvals p) := by
  constructor
  · intro out hok i hi hi2 hfy p _
    unfold reconcile at hok
    obtain ⟨hne, hht, hout⟩ := etapa2_eq_ok hok
    subst hout
    have e2 : (etapa1 (limpar orc) (agrupar g) ano ps pe).rows
        = orc.rows.map (fun r =>
            mergeRowFold g ano orc.periodCols (List.range' ps (pe + 1 - ps)) r) :=
      etapa1_rows (limpar orc) g ano ps pe
    simp only [List.get_eq_getElem] at hfy ⊢
    simp only [derivar_rows, e2, List.getElem_map]
    rw [derivarRow_pvals, mergeRowFold_of_ne g ano _ _ _ hfy]
  · intro w hw i hi hi2 hfy p _
    unfold reconcile at hw
    obtain ⟨hnil, hwt⟩ := etapa2_eq_warn hw
    subst hwt
    have e2 : (etapa1 (limpar orc) (agrupar g) ano ps pe).rows
        = orc.rows.map (fun r =>
            mergeRowFold g ano orc.periodCols (List.range' ps (pe + 1 - ps)) r) :=
      etapa1_rows (limpar orc) g ano ps pe
    simp only [List.get_eq_getElem] at hfy ⊢
    simp only [e2, List.getElem_map]
    rw [mergeRowFold_of_ne g ano _ _ _ hfy]

/-- Witness for C6: in the concrete scenario the 2025 row keeps its
input value 10 in column Period 1. -/
theorem claim6_witness :
    reconcile exOrc exG 2026 1 3 = RResult.ok exOut ∧
      (exOrc.rows.get ⟨0, by decide⟩).fy ≠ 2026 ∧
      (exOut.rows.get ⟨0, by decide⟩).pvals 1 = (exOrc.rows.get ⟨0, by decide⟩).pvals 1 :=
  ⟨rfl, by decide,
    (claim6_nontarget_stability exOrc exG 2026 1 3).1 exOut rfl 0 (by decide) (by decide)
      (by decide) 1 (by decide)⟩

theorem roundHalfEven_zero : roundHalfEven 0 = 0 := by
  with_unfolding_all decide

/-- C1: in the successful output, every budget row of the target fiscal
year holds, in each column Period p with periodStart at most p at most
periodEnd that the budget table possesses, the rounded sum of the values
of the expenditure rows sharing its (fiscal year, project code, period)
key - rounding being the round of the host numeric library, nearest
integer with ties to even - and 0 when no expenditure row has that key. -/
theorem claim1_aggregation_zero_fill (orc : BTable) (g : List GRow) (ano : Int) (ps pe : Nat)
    (out : OTable) (hok : reconcile orc g ano ps pe = RResult.ok out)
    (i : Nat) (hi : i < out.rows.length) (hi2 : i < orc.rows.length)
    (hfy : (orc.rows.get ⟨i, hi2⟩).fy = ano)
    (p : Nat) (hp1 : ps ≤ p) (hp2 : p ≤ pe) (hpc : p ∈ orc.periodCols) :
    (out.rows.get ⟨i, hi⟩).pvals p
        = ((roundHalfEven (expSum g ano (orc.rows.get ⟨i, hi2⟩).wbs p) : ℤ) : ℚ) ∧
      (g.filter (fun x => x.fy = ano ∧ x.wbs = (orc.rows.get ⟨i, hi2⟩).wbs ∧ x.period = p) = []
        → (out.rows.get ⟨i, hi⟩).pvals p = 0) := by
  unfold reconcile at hok
  obtain ⟨hne, hht, hout⟩ := etapa2_eq_ok hok
  subst hout
  have e2 : (etapa1 (limpar orc) (agrupar g) ano ps pe).rows
      = orc.rows.map (fun r =>
          mergeRowFold g ano orc.periodCols (List.range' ps (pe + 1 - ps)) r) :=
    etapa1_rows (limpar orc) g ano ps pe
  have hmem : p ∈ List.range' ps (pe + 1 - ps) := by
    rw [List.mem_range'_1]
    omega
  simp only [List.get_eq_getElem] at hfy ⊢
  simp only [derivar_rows, e2, List.getElem_map]
  rw [derivarRow_pvals]
  have htarget := mergeRowFold_pvals_target g ano orc.periodCols p
    (List.range' ps (pe + 1 - ps)) (orc.rows[i])
    (List.nodup_range' ps (pe + 1 - ps)) hfy hmem hpc
  constructor
  · rw [htarget]
  · intro hnil
    rw [htarget]
    have hz : expSum g ano (orc.rows[i]).wbs p = 0 := by
      unfold expSum
      rw [hnil]
      rfl
    rw [hz, roundHalfEven_zero]
    simp

/-- Witness for C1: in the concrete scenario the 2026 row receives in
Period 1 the rounded sum of its two expenditure rows. -/
theorem claim1_witness :
    reconcile exOrc exG 2026 1 3 = RResult.ok exOut ∧
      (exOut.rows.get ⟨1, by decide⟩).pvals 1
        = ((roundHalfEven (expSum exG 2026 (exOrc.rows.get ⟨1, by decide⟩).wbs 1) : ℤ) : ℚ) :=
  ⟨rfl,
    (claim1_aggregation_zero_fill exOrc exG 2026 1 3 exOut rfl 1 (by decide) (by decide)
      (by decide) 1 (by decide) (by decide) (by decide)).1⟩

/-- The maximum project fiscal year read off the derived output rows is
the one read off the underlying budget rows: the derivation keeps both
the project code and the fiscal year of every row. -/
theorem derivar_mask_bridge (nums : List Nat) (rs : List BRow) (r : BRow) :
    projMaxFY (rs.map (derivarRow nums rs)) (derivarRow nums rs r) = maxAnoWBS rs r := by
  unfold projMaxFY maxAnoWBS grupoWBS
  rw [derivarRow_wbs, derivarRow_fy,
    filtmap_fy (derivarRow nums rs) (derivarRow_wbs nums rs) (derivarRow_fy nums rs) r.wbs rs]

/-- Case analysis of one derived row: either the row sits strictly below
the maximum fiscal year of its project and all three derived fields are
blanked, or it sits exactly at the maximum and carries the three computed
values. -/
theorem derivarRow_cases (nums : List Nat) (rs : List BRow) (r : BRow) :
    (r.fy < maxAnoWBS rs r ∧ (derivarRow nums rs r).totalAcumulado = none
      ∧ (derivarRow nums rs r).totalOrcado = none ∧ (derivarRow nums rs r).saldo = none)
    ∨ (r.fy = maxAnoWBS rs r
      ∧ (derivarRow nums rs r).totalAcumulado = some (totalAcumuladoWBS nums rs r.wbs)
      ∧ (derivarRow nums rs r).totalOrcado = some (totalOrcadoWBS rs r.wbs)
      ∧ (derivarRow nums rs r).saldo
          = some (totalOrcadoWBS rs r.wbs - totalAcumuladoWBS nums rs r.wbs)) := by
  unfold derivarRow
  by_cases h : r.fy < maxAnoWBS rs r
  · rw [if_pos h]
    exact Or.inl ⟨h, rfl, rfl, rfl⟩
  · rw [if_neg h]
    refine Or.inr ⟨?_, rfl, rfl, rfl⟩
    have hle : r.fy ≤ maxAnoWBS rs r := le_foldl_max _ r.fy
    omega

/-- C3: in the successful output, a row carries non-null Total Orcado,
Total Acumulado and Saldo exactly when its fiscal year is the maximum
fiscal year among the rows of its project code; every other row of the
project has all three fields null. -/
theorem claim3_masking_law (orc : BTable) (g : List GRow) (ano : Int) (ps pe : Nat)
    (out : OTable) (hok : reconcile orc g ano ps pe = RResult.ok out)
    (i : Nat) (hi : i < out.rows.length) :
    ((out.rows.get ⟨i, hi⟩).fy = projMaxFY out.rows (out.rows.get ⟨i, hi⟩) →
      (out.rows.get ⟨i, hi⟩).totalAcumulado.isSome = true ∧
        (out.rows.get ⟨i, hi⟩).totalOrcado.isSome = true ∧
        (out.rows.get ⟨i, hi⟩).saldo.isSome = true) ∧
    ((out.rows.get ⟨i, hi⟩).fy ≠ projMaxFY out.rows (out.rows.get ⟨i, hi⟩) →
      (out.rows.get ⟨i, hi⟩).totalAcumulado = none ∧
        (out.rows.get ⟨i, hi⟩).totalOrcado = none ∧
        (out.rows.get ⟨i, hi⟩).saldo = none) := by
  unfold reconcile at hok
  obtain ⟨hne, hht, hout⟩ := etapa2_eq_ok hok
  subst hout
  have hi' : i < (etapa1 (limpar orc) (agrupar g) ano ps pe).rows.length := by
    have h := hi
    rw [derivar_rows, List.length_map] at h
    exact h
  have hrow : (derivar (etapa1 (limpar orc) (agrupar g) ano ps pe)).rows.get ⟨i, hi⟩
      = derivarRow
          ((colunasPeriodo (etapa1 (limpar orc) (agrupar g) ano ps pe)).map parsePeriodName)
          (etapa1 (limpar orc) (agrupar g) ano ps pe).rows
          ((etapa1 (limpar orc) (agrupar g) ano ps pe).rows.get ⟨i, hi'⟩) := by
    simp only [List.get_eq_getElem, derivar_rows, List.getElem_map]
  rw [hrow, derivar_rows, derivar_mask_bridge, derivarRow_fy]
  rcases derivarRow_cases
      ((colunasPeriodo (etapa1 (limpar orc) (agrupar g) ano ps pe)).map parsePeriodName)
      (etapa1 (limpar orc) (agrupar g) ano ps pe).rows
      ((etapa1 (limpar orc) (agrupar g) ano ps pe).rows.get ⟨i, hi'⟩)
    with ⟨hlt, h1, h2, h3⟩ | ⟨heq, h1, h2, h3⟩
  · constructor
    · intro hEq
      omega
    · intro _
      exact ⟨h1, h2, h3⟩
  · constructor
    · intro _
      rw [h1, h2, h3]
      exact ⟨rfl, rfl, rfl⟩
    · intro hne2
      exact absurd heq hne2

/-- C4: in the successful output every row whose three derived fields are
present satisfies Saldo = Total Orcado - Total Acumulado exactly. -/
theorem claim4_balance_identity (orc : BTable) (g : List GRow) (ano : Int) (ps pe : Nat)
    (out : OTable) (hok : reconcile orc g ano ps pe = RResult.ok out)
    (i : Nat) (hi : i < out.rows.length) (o a s : ℚ)
    (ho : (out.rows.get ⟨i, hi⟩).totalOrcado = some o)
    (ha : (out.rows.get ⟨i, hi⟩).totalAcumulado = some a)
    (hs : (out.rows.get ⟨i, hi⟩).saldo = some s) :
    s = o - a := by
  unfold reconcile at hok
  obtain ⟨hne, hht, hout⟩ := etapa2_eq_ok hok
  subst hout
  have hi' : i < (etapa1 (limpar orc) (agrupar g) ano ps pe).rows.length := by
    have h := hi
    rw [derivar_rows, List.length_map] at h
    exact h
  have hrow : (derivar (etapa1 (limpar orc) (agrupar g) ano ps pe)).rows.get ⟨i, hi⟩
      = derivarRow
          ((colunasPeriodo (etapa1 (limpar orc) (agrupar g) ano ps pe)).map parsePeriodName)
          (etapa1 (limpar orc) (agrupar g) ano ps pe).rows
          ((etapa1 (limpar orc) (agrupar g) ano ps pe).rows.get ⟨i, hi'⟩) := by
    simp only [List.get_eq_getElem, derivar_rows, List.getElem_map]
  rw [hrow] at ho ha hs
  rcases derivarRow_cases
      ((colunasPeriodo (etapa1 (limpar orc) (agrupar g) ano ps pe)).map parsePeriodName)
      (etapa1 (limpar orc) (agrupar g) ano ps pe).rows
      ((etapa1 (limpar orc) (agrupar g) ano ps pe).rows.get ⟨i, hi'⟩)
    with ⟨_, h1, h2, h3⟩ | ⟨_, h1, h2, h3⟩
  · rw [h2] at ho
    exact absurd ho (by simp)
  · rw [h2] at ho
    rw [h1] at ha
    rw [h3] at hs
    injection ho with ho2
    injection ha with ha2
    injection hs with hs2
    rw [← ho2, ← ha2, ← hs2]

set_option maxRecDepth 100000

/-- Witness for C3: in the concrete scenario the 2026 row is at the
maximum fiscal year of project P1 and keeps its three derived fields. -/
theorem claim3_witness :
    reconcile exOrc exG 2026 1 3 = RResult.ok exOut ∧
      (exOut.rows.get ⟨1, by decide⟩).fy
          = projMaxFY exOut.rows (exOut.rows.get ⟨1, by decide⟩) ∧
      ((exOut.rows.get ⟨1, by decide⟩).totalAcumulado.isSome = true ∧
        (exOut.rows.get ⟨1, by decide⟩).totalOrcado.isSome = true ∧
        (exOut.rows.get ⟨1, by decide⟩).saldo.isSome = true) :=
  ⟨rfl, by with_unfolding_all decide,
    (claim3_masking_law exOrc exG 2026 1 3 exOut rfl 1 (by decide)).1
      (by with_unfolding_all decide)⟩

/-- Witness for C4: in the concrete scenario the 2026 row satisfies
492 = 600 - 108. -/
theorem claim4_witness :
    ((exOut.rows.get ⟨1, by decide⟩).totalOrcado = some 600 ∧
      (exOut.rows.get ⟨1, by decide⟩).totalAcumulado = some 108 ∧
      (exOut.rows.get ⟨1, by decide⟩).saldo = some 492) ∧
      (492 : ℚ) = 600 - 108 :=
  ⟨⟨by with_unfolding_all decide, by with_unfolding_all decide, by with_unfolding_all decide⟩,
    claim4_balance_identity exOrc exG 2026 1 3 exOut rfl 1 (by decide) 600 108 492
      (by with_unfolding_all decide) (by with_unfolding_all decide)
      (by with_unfolding_all decide)⟩

/-- C7, counterexample: in the concrete scenario of the spec (with the
2025 row carrying the non-zero period values 10, 11, 12), the Total
Acumulado of the 2026 row is 108, the project-wide sum across both rows,
not 75, the sum of the period columns of the 2026 row alone - refuting
the clause that Total Acumulado equals the sum of the period columns of
that row itself. -/
theorem claim7_counterexample :
    reconcile exOrc exG 2026 1 3 = RResult.ok exOut ∧
      (exOut.rows.get ⟨1, by decide⟩).totalAcumulado = some 108 ∧
      (exOut.rows.get ⟨1, by decide⟩).pvals 1 + (exOut.rows.get ⟨1, by decide⟩).pvals 2
          + (exOut.rows.get ⟨1, by decide⟩).pvals 3 = 75 ∧
      some (108 : ℚ) ≠ some (75 : ℚ) :=
  ⟨rfl, by with_unfolding_all decide, by with_unfolding_all decide,
    by with_unfolding_all decide⟩

/-- C7, amended: the concrete scenario yields Period 1 = 75, Period 2 = 0
and Period 3 = 0 on the 2026 row, leaves the 2025 period values unchanged,
and gives the 2026 row Total Orcado 600, Total Acumulado equal to the sum
of the period columns over all rows of the project (both fiscal years),
Saldo = Total Orcado - Total Acumulado, with the three derived fields of
the 2025 row null. -/
theorem claim7_concrete_scenario :
    reconcile exOrc exG 2026 1 3 = RResult.ok exOut ∧
      (exOut.rows.get ⟨1, by decide⟩).pvals 1 = 75 ∧
      (exOut.rows.get ⟨1, by decide⟩).pvals 2 = 0 ∧
      (exOut.rows.get ⟨1, by decide⟩).pvals 3 = 0 ∧
      (exOut.rows.get ⟨0, by decide⟩).pvals 1 = (exOrc.rows.get ⟨0, by decide⟩).pvals 1 ∧
      (exOut.rows.get ⟨0, by decide⟩).pvals 2 = (exOrc.rows.get ⟨0, by decide⟩).pvals 2 ∧
      (exOut.rows.get ⟨0, by decide⟩).pvals 3 = (exOrc.rows.get ⟨0, by decide⟩).pvals 3 ∧
      (exOut.rows.get ⟨1, by decide⟩).totalOrcado = some 600 ∧
      (exOut.rows.get ⟨1, by decide⟩).totalAcumulado
          = some ((exOut.rows.get ⟨0, by decide⟩).pvals 1
              + (exOut.rows.get ⟨0, by decide⟩).pvals 2
              + (exOut.rows.get ⟨0, by decide⟩).pvals 3
              + ((exOut.rows.get ⟨1, by decide⟩).pvals 1
              + (exOut.rows.get ⟨1, by decide⟩).pvals 2
              + (exOut.rows.get ⟨1, by decide⟩).pvals 3)) ∧
      (exOut.rows.get ⟨1, by decide⟩).saldo = some (600 - 108) ∧
      (exOut.rows.get ⟨0, by decide⟩).totalAcumulado = none ∧
      (exOut.rows.get ⟨0, by decide⟩).totalOrcado = none ∧
      (exOut.rows.get ⟨0, by decide⟩).saldo = none :=
  ⟨rfl, by with_unfolding_all decide, by with_unfolding_all decide,
    by with_unfolding_all decide, by with_unfolding_all decide,
    by with_unfolding_all decide, by with_unfolding_all decide,
    by with_unfolding_all decide, by with_unfolding_all decide,
    by with_unfolding_all decide, by with_unfolding_all decide,
    by with_unfolding_all decide, by with_unfolding_all decide⟩

/-- C8, counterexample: the discovered period-column list of a table
holding Period 2 and Period 10 puts Period 10 first - Python sorted on
strings is lexicographic, so the list is not in ascending numeric-suffix
order. -/
theorem claim8_counterexample :
    colunasPeriodo exP210 = ["Period 10", "Period 2"] ∧
      (["Period 10", "Period 2"] : List String) ≠ ["Period 2", "Period 10"] :=
  ⟨by decide, by decide⟩

theorem strLeAux_total : ∀ a b : List Char, strLeAux a b = true ∨ strLeAux b a = true := by
  intro a
  induction a with
  | nil => intro b; exact Or.inl rfl
  | cons x xs ih =>
    intro b
    cases b with
    | nil => exact Or.inr rfl
    | cons y ys =>
      by_cases h1 : x.toNat < y.toNat
      · left
        unfold strLeAux
        rw [if_pos h1]
      · by_cases h2 : y.toNat < x.toNat
        · right
          unfold strLeAux
          rw [if_pos h2]
        · rcases ih ys with h | h
          · left
            unfold strLeAux
            rw [if_neg h1, if_neg h2]
            exact h
          · right
            unfold strLeAux
            rw [if_neg h2, if_neg h1]
            exact h

theorem strLeAux_trans : ∀ a b c : List Char, strLeAux a b = true → strLeAux b c = true →
    strLeAux a c = true := by
  intro a
  induction a with
  | nil => intro b c _ _; rfl
  | cons x xs ih =>
    intro b c hab hbc
    cases b with
    | nil => exact absurd hab (by simp [strLeAux])
    | cons y ys =>
      cases c with
      | nil => exact absurd hbc (by simp [strLeAux])
      | cons z zs =>
        unfold strLeAux at hab hbc ⊢
        by_cases h1 : x.toNat < y.toNat
        · by_cases h2 : y.toNat < z.toNat
          · rw [if_pos (by omega : x.toNat < z.toNat)]
          · by_cases h3 : z.toNat < y.toNat
            · rw [if_neg h2, if_pos h3] at hbc
              exact absurd hbc (by simp)
            · rw [if_pos (by omega : x.toNat < z.toNat)]
        · by_cases h1b : y.toNat < x.toNat
          · rw [if_neg h1, if_pos h1b] at hab
            exact absurd hab (by simp)
          · by_cases h2 : y.toNat < z.toNat
            · rw [if_pos (by omega : x.toNat < z.toNat)]
            · by_cases h3 : z.toNat < y.toNat
              · rw [if_neg h2, if_pos h3] at hbc
                exact absurd hbc (by simp)
              · rw [if_neg h1, if_neg h1b] at hab
                rw [if_neg h2, if_neg h3] at hbc
                rw [if_neg (by omega : ¬x.toNat < z.toNat),
                  if_neg (by omega : ¬z.toNat < x.toNat)]
                exact ih ys zs hab hbc

instance : IsTotal String (fun a b => strLe a b = true) :=
  ⟨fun a b => strLeAux_total a.data b.data⟩

instance : IsTrans String (fun a b => strLe a b = true) :=
  ⟨fun a b c => strLeAux_trans a.data b.data c.data⟩

/-- C8, amended: the discovered period-column list is the matching column
names sorted in ascending lexicographic string order (the order of Python
sorted on strings), so that for example Period 10 precedes Period 2; the
order has no effect on the downstream sums, which are order-insensitive. -/
theorem claim8_lexicographic_sort (t : BTable) :
    (colunasPeriodo t).Sorted (fun a b => strLe a b = true) ∧
      (colunasPeriodo t).Perm (t.periodCols.map periodColName) := by
  unfold colunasPeriodo
  exact ⟨List.sorted_insertionSort _ _, List.perm_insertionSort _ _⟩

end Analisador
